import Mathlib

/-!
Shallow embedding of the realtime quiz coordinator in
`src/server/game-socket-handler.ts` (the current revision of the file: the
variant with `PLAYER_IDENTIFY` and `sharedAdminState`).

Connections (`WebSocket` objects) are modelled as natural numbers.  JavaScript
`Map`s are modelled as association lists in insertion order (`mapGet`,
`mapSet`, `mapDelete` mirror `Map.get`, `Map.set`, `Map.delete`).  JSON
numbers arriving in payloads are modelled as rationals (`JsVal.num`), so the
source's `typeof newState !== 'number'` check is expressible without floating
point.  Every observable action of a handler — a successful `ws.send`, a
`ws.close`, the Supabase delete, a `wsClientMap.delete` and a `games.delete`
during disconnect teardown — is recorded, in program order, as a `Step` in the
trace the handler returns next to the updated server state.
-/

namespace QuizServer

/-- A WebSocket connection, identified by an abstract id. -/
abbrev Conn := Nat

/-- A JSON payload value (numbers as rationals; no floats are needed because
the handler only stores and forwards them). -/
inductive JsVal where
  | num (q : Rat)
  | str (s : String)
  | boolVal (b : Bool)
  | nullVal
deriving DecidableEq, Repr

/-- `gamePhase` field of the source's `GameState`. -/
inductive GamePhase where
  | lobby
  | question
  | leaderboard
  | ended
deriving DecidableEq, Repr

/-- The source's `Player` record (`id`, `nickname`, `score`, `ws`). -/
structure Player where
  id : String
  nickname : String
  score : Nat
  ws : Option Conn
deriving DecidableEq, Repr

/-- The source's `GameState` record. -/
structure GameState where
  gameId : String
  gamePin : String
  hostWs : Option Conn
  players : List (String × Player)
  currentQuestionIndex : Int
  gamePhase : GamePhase
  sharedAdminState : Rat
deriving DecidableEq, Repr

/-- The value stored in `wsClientMap`: `{ gameId, clientId, isHost }`. -/
structure ClientInfo where
  gameId : String
  clientId : String
  isHost : Bool
deriving DecidableEq, Repr

/-- The whole in-memory server state: the `games` map, the `wsClientMap`
registry, and the set of connections whose `readyState` is `OPEN`. -/
structure ServerState where
  games : List (String × GameState)
  wsClientMap : List (Conn × ClientInfo)
  openConns : List Conn
deriving DecidableEq, Repr

/-! ### JavaScript `Map` operations as association-list functions -/

def mapGet {α β : Type} [DecidableEq α] : List (α × β) → α → Option β
  | [], _ => none
  | (k', v) :: rest, k => if k' = k then some v else mapGet rest k

def mapSet {α β : Type} [DecidableEq α] : List (α × β) → α → β → List (α × β)
  | [], k, v => [(k, v)]
  | (k', v') :: rest, k, v =>
      if k' = k then (k, v) :: rest else (k', v') :: mapSet rest k v

def mapDelete {α β : Type} [DecidableEq α] : List (α × β) → α → List (α × β)
  | [], _ => []
  | (k', v') :: rest, k =>
      if k' = k then mapDelete rest k else (k', v') :: mapDelete rest k

@[simp] theorem mapGet_nil {α β : Type} [DecidableEq α] (k : α) :
    mapGet ([] : List (α × β)) k = none := rfl

@[simp] theorem mapGet_mapSet_self {α β : Type} [DecidableEq α]
    (m : List (α × β)) (k : α) (v : β) : mapGet (mapSet m k v) k = some v := by
  induction m with
  | nil => simp [mapGet, mapSet]
  | cons hd tl ih =>
      obtain ⟨k', v'⟩ := hd
      by_cases h : k' = k
      · simp [mapGet, mapSet, h]
      · simp [mapGet, mapSet, h, ih]

@[simp] theorem mapGet_mapSet_ne {α β : Type} [DecidableEq α]
    (m : List (α × β)) (k k' : α) (v : β) (h : k' ≠ k) :
    mapGet (mapSet m k v) k' = mapGet m k' := by
  induction m with
  | nil => simp [mapGet, mapSet, Ne.symm h]
  | cons hd tl ih =>
      obtain ⟨k₀, v₀⟩ := hd
      by_cases h₀ : k₀ = k
      · subst h₀
        simp [mapGet, mapSet, Ne.symm h]
      · simp [mapGet, mapSet, h₀, ih]

@[simp] theorem mapGet_mapDelete_self {α β : Type} [DecidableEq α]
    (m : List (α × β)) (k : α) : mapGet (mapDelete m k) k = none := by
  induction m with
  | nil => simp [mapDelete]
  | cons hd tl ih =>
      obtain ⟨k', v'⟩ := hd
      by_cases h : k' = k
      · simp [mapDelete, h, ih]
      · simp [mapDelete, mapGet, h, ih]

@[simp] theorem mapGet_mapDelete_ne {α β : Type} [DecidableEq α]
    (m : List (α × β)) (k k' : α) (h : k' ≠ k) :
    mapGet (mapDelete m k) k' = mapGet m k' := by
  induction m with
  | nil => simp [mapDelete]
  | cons hd tl ih =>
      obtain ⟨k₀, v₀⟩ := hd
      by_cases h₀ : k₀ = k
      · subst h₀
        simp [mapDelete, mapGet, Ne.symm h, ih]
      · simp [mapDelete, mapGet, h₀, ih]

/-! ### Wire messages -/

/-- Outbound messages (the `{ type, payload }` frames the server sends). -/
inductive ServerMsg where
  | errorMsg (text : String)
  | playerListUpdate (players : List (String × String × Nat))
  | sharedStateUpdate (newState : Rat)
  | gameStarted
  | showQuestion (index : Int) (text : String) (options : List String)
  | gameEnded (reason : String)
  | identifySuccess (text : String)
  | answerReceived
  | joinSuccess (playerId : String) (nickname : String) (gameId : String)
deriving DecidableEq, Repr

/-- Inbound messages recognised by the handler's `switch`. -/
inductive ClientMsg where
  | hostJoin (gameId : Option String) (gamePin : Option String)
  | playerIdentify (gameId : Option String) (playerId : Option String)
      (nickname : Option String)
  | startGame
  | adminUpdateSharedState (newState : Option JsVal)
  | submitAnswer (answerIndex : Option JsVal)
deriving DecidableEq, Repr

/-- One observable step of a handler, in program order: a delivered
`ws.send`, a `ws.close` call, the best-effort Supabase delete, a
`wsClientMap.delete`, or a `games.delete`. -/
inductive Step where
  | wsSend (c : Conn) (m : ServerMsg)
  | wsClose (c : Conn)
  | dbDelete (gameId : String)
  | registryDelete (c : Conn)
  | storeDelete (gameId : String)
deriving DecidableEq, Repr

/-! ### Dispatcher helpers (`send`, `broadcast`, `sendPlayerListUpdate`,
`sendSharedStateUpdate`, `sendQuestion`) -/

/-- The source's `send`: `ws.send` happens only if `readyState === OPEN`. -/
def send (st : ServerState) (c : Conn) (m : ServerMsg) : List Step :=
  if c ∈ st.openConns then [Step.wsSend c m] else []

/-- The guard `broadcast` applies to each candidate recipient (the host's
`hostWs` or a player's `ws`): send only if the reference is non-null, not the
excluded socket, and its `readyState` is `OPEN`. -/
def sendIfOpenTo (st : ServerState) (excludeWs : Option Conn) (m : ServerMsg) :
    Option Conn → List Step
  | some w =>
      if some w ≠ excludeWs ∧ w ∈ st.openConns then [Step.wsSend w m] else []
  | none => []

/-- The source's `broadcast`: host first (if connected, open and not
excluded), then every player with an open, non-excluded connection, in roster
order. -/
def broadcast (st : ServerState) (gameId : String) (m : ServerMsg)
    (excludeWs : Option Conn) : List Step :=
  match mapGet st.games gameId with
  | none => []
  | some game =>
      sendIfOpenTo st excludeWs m game.hostWs ++
      (game.players.map (fun pr => sendIfOpenTo st excludeWs m pr.2.ws)).flatten

/-- The roster snapshot `{ id, nickname, score }` sent in
`PLAYER_LIST_UPDATE`. -/
def playerListPayload (game : GameState) : List (String × String × Nat) :=
  game.players.map (fun pr => (pr.2.id, pr.2.nickname, pr.2.score))

/-- The source's `sendPlayerListUpdate` (current revision: a broadcast). -/
def sendPlayerListUpdate (st : ServerState) (gameId : String) : List Step :=
  match mapGet st.games gameId with
  | none => []
  | some game =>
      broadcast st gameId (ServerMsg.playerListUpdate (playerListPayload game)) none

/-- The source's `sendSharedStateUpdate`: unicast when a target is given,
otherwise a broadcast. -/
def sendSharedStateUpdate (st : ServerState) (gameId : String) (state : Rat)
    (target : Option Conn) : List Step :=
  match target with
  | some t => send st t (ServerMsg.sharedStateUpdate state)
  | none => broadcast st gameId (ServerMsg.sharedStateUpdate state) none

/-- The placeholder question payload `sendQuestion` builds from
`currentQuestionIndex`. -/
def questionMsg (idx : Int) : ServerMsg :=
  ServerMsg.showQuestion idx
    ("This is question " ++ toString (idx + 1) ++ "?")
    ["Option A", "Option B", "Option C", "Option D"]

/-- The source's `sendQuestion`. -/
def sendQuestion (st : ServerState) (gameId : String) : List Step :=
  match mapGet st.games gameId with
  | none => []
  | some game =>
      if game.gamePhase = GamePhase.question then
        broadcast st gameId (questionMsg game.currentQuestionIndex) none
      else []

/-! ### Session store -/

/-- The record `findOrCreateGame` installs for an unknown `gameId`. -/
def freshGame (gameId gamePin : String) : GameState :=
  { gameId := gameId
    gamePin := gamePin
    hostWs := none
    players := []
    currentQuestionIndex := -1
    gamePhase := GamePhase.lobby
    sharedAdminState := 0 }

/-- The source's `findOrCreateGame`, returning the (possibly extended) store
together with the game it yields. -/
def findOrCreateGame (st : ServerState) (gameId gamePin : String) :
    ServerState × GameState :=
  match mapGet st.games gameId with
  | some g => (st, g)
  | none =>
      let g := freshGame gameId gamePin
      ({ st with games := mapSet st.games gameId g }, g)

/-! ### Message handlers (the `switch` in `handleWebSocket`'s message listener) -/

/-- Tail of the `HOST_JOIN` case once the host-conflict guard has passed:
record the host connection, register the identity, then send the roster
snapshot (broadcast) and the shared state (unicast to the new host). -/
def hostJoinSuccess (st : ServerState) (c : Conn) (gid : String)
    (game : GameState) : ServerState × List Step :=
  let game1 := { game with hostWs := some c }
  let st2 := { st with
    games := mapSet st.games gid game1
    wsClientMap := mapSet st.wsClientMap c ⟨gid, "host_" ++ gid, true⟩ }
  (st2, sendPlayerListUpdate st2 gid ++
        sendSharedStateUpdate st2 gid game1.sharedAdminState (some c))

/-- The `HOST_JOIN` case. -/
def handleHostJoin (st : ServerState) (c : Conn)
    (gameIdOpt gamePinOpt : Option String) : ServerState × List Step :=
  match gameIdOpt, gamePinOpt with
  | some gid, some pin =>
      if gid = "" ∨ pin = "" then
        (st, send st c (ServerMsg.errorMsg "Missing gameId or gamePin for host join.") ++
             [Step.wsClose c])
      else
        let res := findOrCreateGame st gid pin
        match res.2.hostWs with
        | some h =>
            if h ≠ c then
              (res.1, send res.1 c (ServerMsg.errorMsg "Game already has a host.") ++
                      [Step.wsClose c])
            else hostJoinSuccess res.1 c gid res.2
        | none => hostJoinSuccess res.1 c gid res.2
  | _, _ =>
      (st, send st c (ServerMsg.errorMsg "Missing gameId or gamePin for host join.") ++
           [Step.wsClose c])

/-- The `PLAYER_IDENTIFY` case. -/
def handlePlayerIdentify (st : ServerState) (c : Conn)
    (gameIdOpt playerIdOpt nicknameOpt : Option String) : ServerState × List Step :=
  match gameIdOpt, playerIdOpt, nicknameOpt with
  | some gid, some pid, some nick =>
      if gid = "" ∨ pid = "" ∨ nick = "" then
        (st, send st c
              (ServerMsg.errorMsg "Missing gameId, playerId, or nickname for player identify.") ++
             [Step.wsClose c])
      else
        match mapGet st.games gid with
        | none =>
            (st, send st c (ServerMsg.errorMsg "Game not found.") ++ [Step.wsClose c])
        | some game =>
            let player : Player :=
              match mapGet game.players pid with
              | none => { id := pid, nickname := nick, score := 0, ws := some c }
              | some p => { p with ws := some c }
            let game1 := { game with players := mapSet game.players pid player }
            let st1 := { st with
              games := mapSet st.games gid game1
              wsClientMap := mapSet st.wsClientMap c ⟨gid, pid, false⟩ }
            (st1, send st1 c (ServerMsg.identifySuccess "WebSocket identified successfully.") ++
                  sendPlayerListUpdate st1 gid ++
                  sendSharedStateUpdate st1 gid game1.sharedAdminState (some c))
  | _, _, _ =>
      (st, send st c
            (ServerMsg.errorMsg "Missing gameId, playerId, or nickname for player identify.") ++
           [Step.wsClose c])

/-- The `START_GAME` case.  Note that a non-lobby phase is a silent `return`
in the source, with no reply of any kind. -/
def handleStartGame (st : ServerState) (c : Conn) : ServerState × List Step :=
  match mapGet st.wsClientMap c with
  | none => (st, send st c (ServerMsg.errorMsg "Only the host can start the game."))
  | some ci =>
      if ci.isHost = false then
        (st, send st c (ServerMsg.errorMsg "Only the host can start the game."))
      else
        match mapGet st.games ci.gameId with
        | none => (st, [])
        | some game =>
            if game.gamePhase ≠ GamePhase.lobby then (st, [])
            else
              let game1 := { game with
                gamePhase := GamePhase.question, currentQuestionIndex := 0 }
              let st1 := { st with games := mapSet st.games ci.gameId game1 }
              (st1, broadcast st1 ci.gameId ServerMsg.gameStarted none ++
                    sendQuestion st1 ci.gameId)

/-- The `ADMIN_UPDATE_SHARED_STATE` case.  The payload guard is the source's
`typeof newState !== 'number'`: any JSON number passes, integral or not. -/
def handleAdminUpdate (st : ServerState) (c : Conn)
    (newStateOpt : Option JsVal) : ServerState × List Step :=
  match mapGet st.wsClientMap c with
  | none => (st, send st c (ServerMsg.errorMsg "Only the host can update the state."))
  | some ci =>
      if ci.isHost = false then
        (st, send st c (ServerMsg.errorMsg "Only the host can update the state."))
      else
        match mapGet st.games ci.gameId with
        | none => (st, [])
        | some game =>
            match newStateOpt with
            | some (JsVal.num q) =>
                let game1 := { game with sharedAdminState := q }
                let st1 := { st with games := mapSet st.games ci.gameId game1 }
                (st1, sendSharedStateUpdate st1 ci.gameId q none)
            | _ => (st, send st c (ServerMsg.errorMsg "Invalid state value."))

/-- The `SUBMIT_ANSWER` case: every rejection is a silent `return`; the
answer index itself is only logged. -/
def handleSubmitAnswer (st : ServerState) (c : Conn) : ServerState × List Step :=
  match mapGet st.wsClientMap c with
  | none => (st, [])
  | some ci =>
      if ci.isHost then (st, [])
      else
        match mapGet st.games ci.gameId with
        | none => (st, [])
        | some game =>
            match mapGet game.players ci.clientId with
            | none => (st, [])
            | some _ =>
                if game.gamePhase = GamePhase.question then
                  (st, send st c ServerMsg.answerReceived)
                else (st, [])

/-- Dispatch on the inbound message type. -/
def handleMessage (st : ServerState) (c : Conn) (m : ClientMsg) :
    ServerState × List Step :=
  match m with
  | ClientMsg.hostJoin g p => handleHostJoin st c g p
  | ClientMsg.playerIdentify g pid n => handlePlayerIdentify st c g pid n
  | ClientMsg.startGame => handleStartGame st c
  | ClientMsg.adminUpdateSharedState v => handleAdminUpdate st c v
  | ClientMsg.submitAnswer _ => handleSubmitAnswer st c

/-! ### The `close` listener -/

/-- Teardown work done for one player of an ended game: `p.ws.close(1000,
'Host disconnected')` if the socket exists and is open, then
`wsClientMap.delete(p.ws)` if the socket exists. -/
def playerCleanup (st : ServerState) : Option Conn → List Step
  | some w =>
      (if w ∈ st.openConns then [Step.wsClose w] else []) ++ [Step.registryDelete w]
  | none => []

/-- The `game.players.forEach` loop of the host teardown, as a step list. -/
def teardownCleanupSteps (st : ServerState)
    (players : List (String × Player)) : List Step :=
  (players.map (fun pr => playerCleanup st pr.2.ws)).flatten

/-- Host-departure teardown, in the source's statement order: null out
`hostWs`, broadcast `GAME_ENDED` excluding the departing host, issue the
best-effort Supabase delete, delete the game from the store, then close each
player's open socket and delete its registry entry.  `dbOk` is the outcome of
the Supabase call; the source only logs it. -/
def hostTeardown (dbOk : Bool) (st1 : ServerState) (c : Conn) (gid : String)
    (game : GameState) : ServerState × List Step :=
  let game1 := { game with hostWs := none }
  let stB := { st1 with games := mapSet st1.games gid game1 }
  let bsteps := broadcast stB gid
      (ServerMsg.gameEnded "Host disconnected and game has ended.") (some c)
  let stC := { stB with games := mapDelete stB.games gid }
  let cleanupSteps := teardownCleanupSteps stC game1.players
  let regAfter := game1.players.foldl
      (fun reg pr => match pr.2.ws with
        | some w => mapDelete reg w
        | none => reg) stC.wsClientMap
  let stD := { stC with wsClientMap := regAfter }
  (stD, bsteps ++ [Step.dbDelete gid, Step.storeDelete gid] ++ cleanupSteps)

/-- The `close` listener: look up the registry entry, drop it, then run the
host or the player path. -/
def handleClose (dbOk : Bool) (st : ServerState) (c : Conn) :
    ServerState × List Step :=
  match mapGet st.wsClientMap c with
  | none => (st, [])
  | some ci =>
      let gameOpt := mapGet st.games ci.gameId
      let st1 := { st with wsClientMap := mapDelete st.wsClientMap c }
      match gameOpt with
      | none => (st1, [Step.registryDelete c])
      | some game =>
          if ci.isHost then
            let res := hostTeardown dbOk st1 c ci.gameId game
            (res.1, Step.registryDelete c :: res.2)
          else
            match mapGet game.players ci.clientId with
            | none => (st1, [Step.registryDelete c])
            | some p =>
                let game1 := { game with
                  players := mapSet game.players ci.clientId { p with ws := none } }
                let st2 := { st1 with games := mapSet st1.games ci.gameId game1 }
                (st2, Step.registryDelete c :: sendPlayerListUpdate st2 ci.gameId)

/-- A connection-level event: an inbound parsed message or a socket close. -/
inductive Event where
  | msg (c : Conn) (m : ClientMsg)
  | closed (c : Conn)
deriving DecidableEq, Repr

/-- One step of the coordinator: process a single event to completion. -/
def step (dbOk : Bool) (st : ServerState) (e : Event) : ServerState × List Step :=
  match e with
  | Event.msg c m => handleMessage st c m
  | Event.closed c => handleClose dbOk st c

/-! ### Dispatcher lemmas -/

/-- Membership in the per-recipient guard list. -/
theorem mem_sendIfOpenTo (st : ServerState) (ex : Option Conn) (m : ServerMsg)
    (o : Option Conn) (s : Step) :
    s ∈ sendIfOpenTo st ex m o ↔
      ∃ w, o = some w ∧ some w ≠ ex ∧ w ∈ st.openConns ∧ s = Step.wsSend w m := by
  cases o with
  | none => simp [sendIfOpenTo]
  | some w =>
      by_cases hcond : some w ≠ ex ∧ w ∈ st.openConns
      · simp only [sendIfOpenTo, if_pos hcond, List.mem_singleton]
        constructor
        · rintro rfl
          exact ⟨w, rfl, hcond.1, hcond.2, rfl⟩
        · rintro ⟨w', hw', _, _, rfl⟩
          obtain rfl : w = w' := Option.some.inj hw'
          rfl
      · refine iff_of_false (by simp [sendIfOpenTo, if_neg hcond]) ?_
        rintro ⟨w', hw', hne, hop, _⟩
        obtain rfl : w = w' := Option.some.inj hw'
        exact hcond ⟨hne, hop⟩

/-- Which `wsSend` steps a `broadcast` produces: exactly the message `m`, to
the host connection and to every player connection that is present, open and
not excluded. -/
theorem wsSend_mem_broadcast (st : ServerState) (gid : String) (m : ServerMsg)
    (ex : Option Conn) (w : Conn) (m' : ServerMsg) :
    Step.wsSend w m' ∈ broadcast st gid m ex ↔
      m' = m ∧ ∃ g, mapGet st.games gid = some g ∧ some w ≠ ex ∧ w ∈ st.openConns ∧
        (g.hostWs = some w ∨ ∃ pr ∈ g.players, pr.2.ws = some w) := by
  unfold broadcast
  cases hg : mapGet st.games gid with
  | none => simp
  | some g =>
      simp only [List.mem_append, List.mem_flatten, List.mem_map, mem_sendIfOpenTo]
      constructor
      · rintro (⟨w', hw', hne, hop, hws⟩ | ⟨l, ⟨pr, hpr, hl⟩, hmem⟩)
        · obtain ⟨rfl, rfl⟩ : w' = w ∧ m' = m := by
            have := Step.wsSend.inj hws
            exact ⟨this.1.symm, this.2⟩
          exact ⟨rfl, g, rfl, hne, hop, Or.inl hw'⟩
        · subst hl
          rw [mem_sendIfOpenTo] at hmem
          obtain ⟨w', hw', hne, hop, hws⟩ := hmem
          obtain ⟨rfl, rfl⟩ : w' = w ∧ m' = m := by
            have := Step.wsSend.inj hws
            exact ⟨this.1.symm, this.2⟩
          exact ⟨rfl, g, rfl, hne, hop, Or.inr ⟨pr, hpr, hw'⟩⟩
      · rintro ⟨rfl, g', hg', hex, hopen, hsrc⟩
        obtain rfl : g = g' := Option.some.inj hg'
        rcases hsrc with hws | ⟨pr, hpr, hws⟩
        · exact Or.inl ⟨w, hws, hex, hopen, rfl⟩
        · refine Or.inr ⟨_, ⟨pr, hpr, rfl⟩, ?_⟩
          rw [mem_sendIfOpenTo]
          exact ⟨w, hws, hex, hopen, rfl⟩

/-- Every step a `broadcast` produces is a `wsSend` of the broadcast
message. -/
theorem broadcast_steps_are_sends (st : ServerState) (gid : String)
    (m : ServerMsg) (ex : Option Conn) :
    ∀ s ∈ broadcast st gid m ex, ∃ w, s = Step.wsSend w m := by
  intro s hs
  unfold broadcast at hs
  cases hg : mapGet st.games gid with
  | none => rw [hg] at hs; simp at hs
  | some g =>
      rw [hg] at hs
      simp only [List.mem_append, List.mem_flatten, List.mem_map] at hs
      rcases hs with hhost | ⟨l, ⟨pr, _, hl⟩, hmem⟩
      · obtain ⟨w, _, _, _, rfl⟩ := (mem_sendIfOpenTo st ex m g.hostWs s).mp hhost
        exact ⟨w, rfl⟩
      · subst hl
        obtain ⟨w, _, _, _, rfl⟩ := (mem_sendIfOpenTo st ex m pr.2.ws s).mp hmem
        exact ⟨w, rfl⟩

/-! ### Claim theorems -/

/-- Claim C1: for every session state, at most one connection is recorded as
`hostWs`; and a `HOST_JOIN` arriving while `hostWs` is a different live
connection is answered with an `ERROR` reply and a `ws.close()` of the
caller, with the whole server state — the session's `hostWs`, roster, phase
and `sharedAdminState` included — left unchanged. -/
theorem single_host_and_conflict_rejected
    (st : ServerState) (c h : Conn) (gid pin : String) (g : GameState)
    (hgid : gid ≠ "") (hpin : pin ≠ "")
    (hg : mapGet st.games gid = some g) (hh : g.hostWs = some h)
    (hlive : h ∈ st.openConns) (hne : h ≠ c) :
    (∀ c₁ c₂, g.hostWs = some c₁ → g.hostWs = some c₂ → c₁ = c₂) ∧
    handleMessage st c (ClientMsg.hostJoin (some gid) (some pin)) =
      (st, send st c (ServerMsg.errorMsg "Game already has a host.") ++
           [Step.wsClose c]) := by
  constructor
  · intro c₁ c₂ h₁ h₂
    rw [h₁] at h₂
    exact Option.some.inj h₂
  · simp [handleMessage, handleHostJoin, findOrCreateGame, hg, hh, hgid, hpin, hne]

def gameW1 : GameState :=
  { gameId := "g", gamePin := "P", hostWs := some 0, players := [],
    currentQuestionIndex := -1, gamePhase := GamePhase.lobby, sharedAdminState := 0 }

def stW1 : ServerState :=
  { games := [("g", gameW1)]
    wsClientMap := [(0, ⟨"g", "host_g", true⟩)]
    openConns := [0, 1] }

/-- Witness for C1 at a concrete conflicting join. -/
theorem single_host_and_conflict_rejected_witness :
    (∀ c₁ c₂, gameW1.hostWs = some c₁ → gameW1.hostWs = some c₂ → c₁ = c₂) ∧
    handleMessage stW1 1 (ClientMsg.hostJoin (some "g") (some "Q")) =
      (stW1, send stW1 1 (ServerMsg.errorMsg "Game already has a host.") ++
             [Step.wsClose 1]) :=
  single_host_and_conflict_rejected stW1 1 0 "g" "Q" gameW1
    (by decide) (by decide) (by decide) (by decide) (by decide) (by decide)

/-- Every step of the player-cleanup loop is a `wsClose` or a
`registryDelete`. -/
theorem teardownCleanupSteps_shape (st : ServerState)
    (players : List (String × Player)) :
    ∀ s ∈ teardownCleanupSteps st players,
      (∃ w, s = Step.wsClose w) ∨ ∃ w, s = Step.registryDelete w := by
  intro s hs
  unfold teardownCleanupSteps at hs
  simp only [List.mem_flatten, List.mem_map] at hs
  obtain ⟨l, ⟨pr, _, hl⟩, hmem⟩ := hs
  subst hl
  cases hws : pr.2.ws with
  | none => rw [hws] at hmem; simp [playerCleanup] at hmem
  | some w =>
      rw [hws] at hmem
      by_cases hop : w ∈ st.openConns
      · simp [playerCleanup, hop] at hmem
        rcases hmem with rfl | rfl
        · exact Or.inl ⟨w, rfl⟩
        · exact Or.inr ⟨w, rfl⟩
      · simp [playerCleanup, hop] at hmem
        exact Or.inr ⟨w, hmem⟩

def playerW2 : Player := { id := "p1", nickname := "Alice", score := 0, ws := some 1 }

def gameW2 : GameState :=
  { gameId := "g", gamePin := "P", hostWs := some 0, players := [("p1", playerW2)],
    currentQuestionIndex := -1, gamePhase := GamePhase.lobby, sharedAdminState := 0 }

def stW2 : ServerState :=
  { games := [("g", gameW2)]
    wsClientMap := [(0, ⟨"g", "host_g", true⟩), (1, ⟨"g", "p1", false⟩)]
    openConns := [0, 1] }

/-- Counterexample to claim C2 as stated: in the host-disconnect teardown the
best-effort persistence delete is issued *before* the session is removed from
the store, before the remaining participant connection is closed, and before
that participant's registry entry is removed — not after all in-memory
teardown is complete.  Only the `GAME_ENDED` broadcast precedes it. -/
theorem db_delete_issued_mid_teardown :
    (handleClose true stW2 0).2 =
      [Step.registryDelete 0,
       Step.wsSend 1 (ServerMsg.gameEnded "Host disconnected and game has ended."),
       Step.dbDelete "g", Step.storeDelete "g",
       Step.wsClose 1, Step.registryDelete 1] ∧
    List.indexOf (Step.dbDelete "g") (handleClose true stW2 0).2 <
      List.indexOf (Step.storeDelete "g") (handleClose true stW2 0).2 ∧
    List.indexOf (Step.dbDelete "g") (handleClose true stW2 0).2 <
      List.indexOf (Step.wsClose 1) (handleClose true stW2 0).2 ∧
    List.indexOf (Step.dbDelete "g") (handleClose true stW2 0).2 <
      List.indexOf (Step.registryDelete 1) (handleClose true stW2 0).2 := by
  decide

/-- The host-teardown trace decomposes as `GAME_ENDED` sends, then the
persistence delete, then the store removal, then socket closes and registry
removals. -/
theorem hostTeardown_decomp (dbOk : Bool) (st1 : ServerState) (c : Conn)
    (gid : String) (game : GameState) :
    ∃ pre post,
      (hostTeardown dbOk st1 c gid game).2 =
        pre ++ Step.dbDelete gid :: Step.storeDelete gid :: post ∧
      (∀ s ∈ pre, ∃ w,
        s = Step.wsSend w (ServerMsg.gameEnded "Host disconnected and game has ended.")) ∧
      (∀ s ∈ post, (∃ w, s = Step.wsClose w) ∨ ∃ w, s = Step.registryDelete w) := by
  refine ⟨broadcast { st1 with games := mapSet st1.games gid { game with hostWs := none } }
      gid (ServerMsg.gameEnded "Host disconnected and game has ended.") (some c),
    teardownCleanupSteps
      { st1 with games := mapDelete (mapSet st1.games gid { game with hostWs := none }) gid }
      game.players, ?_, ?_, ?_⟩
  · simp only [hostTeardown]
    simp [List.append_assoc]
  · exact broadcast_steps_are_sends _ _ _ _
  · exact teardownCleanupSteps_shape _ _

/-- Claim C2 (amended): in the host teardown, the best-effort persistence
delete is issued after the host's registry removal and after the
`GAME_ENDED` broadcast, but *before* the session is removed from the Session
Store and before the remaining participant connections are closed and their
registry entries removed; and no part of the handler's outcome — neither the
resulting in-memory state nor the rest of the trace — depends on the
persistence call's result. -/
theorem host_teardown_db_delete_order (dbOk : Bool) (st : ServerState)
    (c : Conn) (ci : ClientInfo) (g : GameState)
    (hci : mapGet st.wsClientMap c = some ci) (hhost : ci.isHost = true)
    (hg : mapGet st.games ci.gameId = some g) :
    handleClose dbOk st c = handleClose true st c ∧
    ∃ pre post,
      (handleClose dbOk st c).2 =
        Step.registryDelete c :: pre ++ Step.dbDelete ci.gameId ::
          Step.storeDelete ci.gameId :: post ∧
      (∀ s ∈ pre, ∃ w,
        s = Step.wsSend w (ServerMsg.gameEnded "Host disconnected and game has ended.")) ∧
      (∀ s ∈ post, (∃ w, s = Step.wsClose w) ∨ ∃ w, s = Step.registryDelete w) := by
  constructor
  · rfl
  · have hunfold : handleClose dbOk st c =
        ((hostTeardown dbOk { st with wsClientMap := mapDelete st.wsClientMap c }
            c ci.gameId g).1,
         Step.registryDelete c ::
           (hostTeardown dbOk { st with wsClientMap := mapDelete st.wsClientMap c }
              c ci.gameId g).2) := by
      simp only [handleClose, hci, hg, hhost, if_pos]
    obtain ⟨pre, post, heq, hpre, hpost⟩ :=
      hostTeardown_decomp dbOk { st with wsClientMap := mapDelete st.wsClientMap c }
        c ci.gameId g
    refine ⟨pre, post, ?_, hpre, hpost⟩
    rw [hunfold]
    simp only [heq]
    simp

def stW2b : ServerState :=
  { games := [("g", gameW2)]
    wsClientMap := [(0, ⟨"g", "host_g", true⟩), (1, ⟨"g", "p1", false⟩)]
    openConns := [0, 1] }

/-- Witness for the amended C2 at a concrete host disconnect. -/
theorem host_teardown_db_delete_order_witness :
    handleClose false stW2b 0 = handleClose true stW2b 0 ∧
    ∃ pre post,
      (handleClose false stW2b 0).2 =
        Step.registryDelete 0 :: pre ++ Step.dbDelete "g" ::
          Step.storeDelete "g" :: post ∧
      (∀ s ∈ pre, ∃ w,
        s = Step.wsSend w (ServerMsg.gameEnded "Host disconnected and game has ended.")) ∧
      (∀ s ∈ post, (∃ w, s = Step.wsClose w) ∨ ∃ w, s = Step.registryDelete w) :=
  host_teardown_db_delete_order false stW2b 0 ⟨"g", "host_g", true⟩ gameW2
    (by decide) (by decide) (by decide)

/-- Claim C4: a `PLAYER_IDENTIFY` for a `participantId` already in the roster
replaces only that participant's `ws` field — its `score`, `nickname` and
`id` are unchanged, no other roster entry changes, and the session's other
fields are untouched — whatever nickname the message carries. -/
theorem identify_reconnect_preserves_participant
    (st : ServerState) (c : Conn) (gid pid nick : String) (g : GameState) (p : Player)
    (hgid : gid ≠ "") (hpid : pid ≠ "") (hnick : nick ≠ "")
    (hg : mapGet st.games gid = some g) (hp : mapGet g.players pid = some p) :
    ∃ g', mapGet (handleMessage st c
        (ClientMsg.playerIdentify (some gid) (some pid) (some nick))).1.games gid
          = some g' ∧
      mapGet g'.players pid = some { p with ws := some c } ∧
      ({ p with ws := some c }).score = p.score ∧
      ({ p with ws := some c }).nickname = p.nickname ∧
      ({ p with ws := some c }).id = p.id ∧
      (∀ q, q ≠ pid → mapGet g'.players q = mapGet g.players q) ∧
      g'.hostWs = g.hostWs ∧ g'.gamePhase = g.gamePhase ∧
      g'.sharedAdminState = g.sharedAdminState ∧
      g'.currentQuestionIndex = g.currentQuestionIndex := by
  have hmain : (handleMessage st c
      (ClientMsg.playerIdentify (some gid) (some pid) (some nick))).1.games =
      mapSet st.games gid
        { g with players := mapSet g.players pid { p with ws := some c } } := by
    simp [handleMessage, handlePlayerIdentify, hgid, hpid, hnick, hg, hp]
  refine ⟨{ g with players := mapSet g.players pid { p with ws := some c } },
    ?_, ?_, rfl, rfl, rfl, ?_, rfl, rfl, rfl, rfl⟩
  · rw [hmain]
    exact mapGet_mapSet_self _ _ _
  · exact mapGet_mapSet_self _ _ _
  · intro q hq
    exact mapGet_mapSet_ne _ _ _ _ hq

def playerW4 : Player := { id := "p1", nickname := "Alice", score := 7, ws := none }

def gameW4 : GameState :=
  { gameId := "g", gamePin := "P", hostWs := some 0, players := [("p1", playerW4)],
    currentQuestionIndex := -1, gamePhase := GamePhase.lobby, sharedAdminState := 0 }

def stW4 : ServerState :=
  { games := [("g", gameW4)], wsClientMap := [], openConns := [2] }

/-- Witness for C4: a reconnect with a different nickname and a nonzero prior
score keeps both. -/
theorem identify_reconnect_preserves_participant_witness :
    ∃ g', mapGet (handleMessage stW4 2
        (ClientMsg.playerIdentify (some "g") (some "p1") (some "Bob"))).1.games "g"
          = some g' ∧
      mapGet g'.players "p1" = some { playerW4 with ws := some 2 } ∧
      ({ playerW4 with ws := some 2 }).score = playerW4.score ∧
      ({ playerW4 with ws := some 2 }).nickname = playerW4.nickname ∧
      ({ playerW4 with ws := some 2 }).id = playerW4.id ∧
      (∀ q, q ≠ "p1" → mapGet g'.players q = mapGet gameW4.players q) ∧
      g'.hostWs = gameW4.hostWs ∧ g'.gamePhase = gameW4.gamePhase ∧
      g'.sharedAdminState = gameW4.sharedAdminState ∧
      g'.currentQuestionIndex = gameW4.currentQuestionIndex :=
  identify_reconnect_preserves_participant stW4 2 "g" "p1" "Bob" gameW4 playerW4
    (by decide) (by decide) (by decide) (by decide) (by decide)

/-- Claim C7: when a non-host participant's connection closes, only that
participant's `ws` is cleared; the roster entry, its score and nickname
survive, no other entry and no other session field changes, and the updated
roster is broadcast to every remaining open connection of the session — and
those sends (plus the registry removal of the closing connection) are the
only steps taken. -/
theorem player_close_clears_connection_only (dbOk : Bool) (st : ServerState)
    (c : Conn) (gid pid : String) (g : GameState) (p : Player)
    (hci : mapGet st.wsClientMap c = some ⟨gid, pid, false⟩)
    (hg : mapGet st.games gid = some g) (hp : mapGet g.players pid = some p) :
    ∃ g', mapGet (handleClose dbOk st c).1.games gid = some g' ∧
      mapGet g'.players pid = some { p with ws := none } ∧
      ({ p with ws := none }).score = p.score ∧
      ({ p with ws := none }).nickname = p.nickname ∧
      (∀ q, q ≠ pid → mapGet g'.players q = mapGet g.players q) ∧
      g'.hostWs = g.hostWs ∧ g'.gamePhase = g.gamePhase ∧
      g'.sharedAdminState = g.sharedAdminState ∧
      (∀ gid', gid' ≠ gid →
        mapGet (handleClose dbOk st c).1.games gid' = mapGet st.games gid') ∧
      (∀ w, w ∈ st.openConns →
        (g'.hostWs = some w ∨ ∃ pr ∈ g'.players, pr.2.ws = some w) →
        Step.wsSend w (ServerMsg.playerListUpdate (playerListPayload g'))
          ∈ (handleClose dbOk st c).2) ∧
      (∀ s ∈ (handleClose dbOk st c).2, s = Step.registryDelete c ∨
        ∃ w, s = Step.wsSend w (ServerMsg.playerListUpdate (playerListPayload g'))) := by
  have hmain : handleClose dbOk st c =
      ({ st with
          games := mapSet st.games gid
            { g with players := mapSet g.players pid { p with ws := none } }
          wsClientMap := mapDelete st.wsClientMap c },
       Step.registryDelete c ::
         sendPlayerListUpdate
           { st with
              games := mapSet st.games gid
                { g with players := mapSet g.players pid { p with ws := none } }
              wsClientMap := mapDelete st.wsClientMap c } gid) := by
    simp [handleClose, hci, hg, hp]
  set g1 : GameState :=
    { g with players := mapSet g.players pid { p with ws := none } } with hg1
  set st2 : ServerState :=
    { st with games := mapSet st.games gid g1
              wsClientMap := mapDelete st.wsClientMap c } with hst2
  have hget : mapGet st2.games gid = some g1 := by
    rw [hst2]
    exact mapGet_mapSet_self _ _ _
  refine ⟨g1, ?_, ?_, rfl, rfl, ?_, rfl, rfl, rfl, ?_, ?_, ?_⟩
  · rw [hmain]
    exact hget
  · rw [hg1]
    exact mapGet_mapSet_self _ _ _
  · intro q hq
    rw [hg1]
    exact mapGet_mapSet_ne _ _ _ _ hq
  · intro gid' hgid'
    rw [hmain]
    exact mapGet_mapSet_ne _ _ _ _ hgid'
  · intro w hw hsrc
    rw [hmain]
    refine List.mem_cons_of_mem _ ?_
    have : sendPlayerListUpdate st2 gid =
        broadcast st2 gid (ServerMsg.playerListUpdate (playerListPayload g1)) none := by
      simp [sendPlayerListUpdate, hget]
    rw [this, wsSend_mem_broadcast]
    exact ⟨rfl, g1, hget, by simp, hw, hsrc⟩
  · intro s hs
    rw [hmain] at hs
    rcases List.mem_cons.mp hs with rfl | hs'
    · exact Or.inl rfl
    · right
      have : sendPlayerListUpdate st2 gid =
          broadcast st2 gid (ServerMsg.playerListUpdate (playerListPayload g1)) none := by
        simp [sendPlayerListUpdate, hget]
      rw [this] at hs'
      exact broadcast_steps_are_sends _ _ _ _ s hs'

def playerW7 : Player := { id := "p1", nickname := "Alice", score := 3, ws := some 1 }

def gameW7 : GameState :=
  { gameId := "g", gamePin := "P", hostWs := some 0, players := [("p1", playerW7)],
    currentQuestionIndex := -1, gamePhase := GamePhase.lobby, sharedAdminState := 0 }

def stW7 : ServerState :=
  { games := [("g", gameW7)]
    wsClientMap := [(0, ⟨"g", "host_g", true⟩), (1, ⟨"g", "p1", false⟩)]
    openConns := [0, 1] }

/-- Witness for C7 at a concrete player disconnect. -/
theorem player_close_clears_connection_only_witness :
    ∃ g', mapGet (handleClose true stW7 1).1.games "g" = some g' ∧
      mapGet g'.players "p1" = some { playerW7 with ws := none } ∧
      ({ playerW7 with ws := none }).score = playerW7.score ∧
      ({ playerW7 with ws := none }).nickname = playerW7.nickname ∧
      (∀ q, q ≠ "p1" → mapGet g'.players q = mapGet gameW7.players q) ∧
      g'.hostWs = gameW7.hostWs ∧ g'.gamePhase = gameW7.gamePhase ∧
      g'.sharedAdminState = gameW7.sharedAdminState ∧
      (∀ gid', gid' ≠ "g" →
        mapGet (handleClose true stW7 1).1.games gid' = mapGet stW7.games gid') ∧
      (∀ w, w ∈ stW7.openConns →
        (g'.hostWs = some w ∨ ∃ pr ∈ g'.players, pr.2.ws = some w) →
        Step.wsSend w (ServerMsg.playerListUpdate (playerListPayload g'))
          ∈ (handleClose true stW7 1).2) ∧
      (∀ s ∈ (handleClose true stW7 1).2, s = Step.registryDelete 1 ∨
        ∃ w, s = Step.wsSend w (ServerMsg.playerListUpdate (playerListPayload g'))) :=
  player_close_clears_connection_only true stW7 1 "g" "p1" gameW7 playerW7
    (by decide) (by decide) (by decide)

/-- The exact acceptance condition of `SUBMIT_ANSWER` read off the source:
an identified non-host caller whose game exists, whose participant record
resolves, and whose game is in the `question` phase. -/
def submitAccepted (st : ServerState) (c : Conn) : Prop :=
  ∃ ci, mapGet st.wsClientMap c = some ci ∧ ci.isHost = false ∧
    ∃ g, mapGet st.games ci.gameId = some g ∧
      (mapGet g.players ci.clientId).isSome = true ∧
      g.gamePhase = GamePhase.question

/-- Claim C8: `SUBMIT_ANSWER` never changes any server state; when accepted
(identified non-host, participant resolvable, phase `question`) and the
submitter's socket is open, the trace is exactly one `ANSWER_RECEIVED`
unicast to the submitter; in every other case the trace is empty — no error,
no broadcast, and in particular a lobby-phase submission changes no roster
entry and no score. -/
theorem submit_answer_unicast_or_silent (st : ServerState) (c : Conn)
    (ai : Option JsVal) :
    (handleMessage st c (ClientMsg.submitAnswer ai)).1 = st ∧
    (submitAccepted st c → c ∈ st.openConns →
      (handleMessage st c (ClientMsg.submitAnswer ai)).2 =
        [Step.wsSend c ServerMsg.answerReceived]) ∧
    (¬ submitAccepted st c →
      (handleMessage st c (ClientMsg.submitAnswer ai)).2 = []) := by
  refine ⟨?_, ?_, ?_⟩
  · cases hci : mapGet st.wsClientMap c with
    | none => simp [handleMessage, handleSubmitAnswer, hci]
    | some ci =>
        by_cases hh : ci.isHost = true
        · simp [handleMessage, handleSubmitAnswer, hci, hh]
        · cases hg : mapGet st.games ci.gameId with
          | none => simp [handleMessage, handleSubmitAnswer, hci, hh, hg]
          | some g =>
              cases hp : mapGet g.players ci.clientId with
              | none => simp [handleMessage, handleSubmitAnswer, hci, hh, hg, hp]
              | some p =>
                  by_cases hq : g.gamePhase = GamePhase.question
                  · simp [handleMessage, handleSubmitAnswer, hci, hh, hg, hp, hq]
                  · simp [handleMessage, handleSubmitAnswer, hci, hh, hg, hp, hq]
  · rintro ⟨ci, hci, hh, g, hg, hp, hq⟩ hopen
    obtain ⟨p, hp'⟩ := Option.isSome_iff_exists.mp hp
    simp [handleMessage, handleSubmitAnswer, hci, hh, hg, hp', hq, send, hopen]
  · intro hn
    cases hci : mapGet st.wsClientMap c with
    | none => simp [handleMessage, handleSubmitAnswer, hci]
    | some ci =>
        by_cases hh : ci.isHost = true
        · simp [handleMessage, handleSubmitAnswer, hci, hh]
        · cases hg : mapGet st.games ci.gameId with
          | none => simp [handleMessage, handleSubmitAnswer, hci, hh, hg]
          | some g =>
              cases hp : mapGet g.players ci.clientId with
              | none => simp [handleMessage, handleSubmitAnswer, hci, hh, hg, hp]
              | some p =>
                  by_cases hq : g.gamePhase = GamePhase.question
                  · exact absurd
                      ⟨ci, hci, by simpa using hh, g, hg, by simp [hp], hq⟩ hn
                  · simp [handleMessage, handleSubmitAnswer, hci, hh, hg, hp, hq]

def playerW8 : Player := { id := "p1", nickname := "Alice", score := 0, ws := some 1 }

def gameW8 : GameState :=
  { gameId := "g", gamePin := "P", hostWs := some 0, players := [("p1", playerW8)],
    currentQuestionIndex := 0, gamePhase := GamePhase.question, sharedAdminState := 0 }

def gameW8lobby : GameState := { gameW8 with gamePhase := GamePhase.lobby }

def stW8 : ServerState :=
  { games := [("g", gameW8)]
    wsClientMap := [(0, ⟨"g", "host_g", true⟩), (1, ⟨"g", "p1", false⟩)]
    openConns := [0, 1] }

def stW8lobby : ServerState := { stW8 with games := [("g", gameW8lobby)] }

/-- Witness for C8: the accepted case yields the single unicast, and a
lobby-phase submission yields the empty trace. -/
theorem submit_answer_unicast_or_silent_witness :
    ((handleMessage stW8 1 (ClientMsg.submitAnswer (some (JsVal.num 2)))).2 =
       [Step.wsSend 1 ServerMsg.answerReceived]) ∧
    ((handleMessage stW8lobby 1 (ClientMsg.submitAnswer (some (JsVal.num 2)))).1 =
       stW8lobby) ∧
    ((handleMessage stW8lobby 1 (ClientMsg.submitAnswer (some (JsVal.num 2)))).2 = []) :=
  ⟨(submit_answer_unicast_or_silent stW8 1 (some (JsVal.num 2))).2.1
      ⟨⟨"g", "p1", false⟩, by decide, rfl, gameW8, by decide, by decide, rfl⟩
      (by decide),
   (submit_answer_unicast_or_silent stW8lobby 1 (some (JsVal.num 2))).1,
   (submit_answer_unicast_or_silent stW8lobby 1 (some (JsVal.num 2))).2.2
      (by
        rintro ⟨ci, hci, hh, g, hg, hp, hq⟩
        obtain rfl : ci = ⟨"g", "p1", false⟩ := by
          have : some ci = some (⟨"g", "p1", false⟩ : ClientInfo) := by
            rw [← hci]; decide
          exact Option.some.inj this.symm ▸ rfl
        obtain rfl : g = gameW8lobby := by
          have : some g = some gameW8lobby := by
            rw [← hg]; decide
          exact (Option.some.inj this)
        exact absurd hq (by decide))⟩

/-- A successful `PLAYER_IDENTIFY` always ends with a unicast of the
session's current `sharedAdminState` to the identifying connection (when that
connection is open). -/
theorem identify_sends_sharedState (st : ServerState) (c : Conn)
    (gid pid nick : String) (g : GameState)
    (hgid : gid ≠ "") (hpid : pid ≠ "") (hnick : nick ≠ "")
    (hg : mapGet st.games gid = some g) (hopen : c ∈ st.openConns) :
    Step.wsSend c (ServerMsg.sharedStateUpdate g.sharedAdminState) ∈
      (handleMessage st c
        (ClientMsg.playerIdentify (some gid) (some pid) (some nick))).2 := by
  cases hp : mapGet g.players pid <;>
    simp [handleMessage, handlePlayerIdentify, hgid, hpid, hnick, hg, hp,
      sendSharedStateUpdate, send, hopen]

/-- Claim C10: a session freshly installed by `findOrCreateGame` starts with
`sharedAdminState = 0`, `gamePhase = lobby`, an empty roster,
`currentQuestionIndex = -1` and a null `hostWs`; when the id already exists
the store and the returned game are unchanged whatever pin is supplied; and
a participant identifying while `sharedAdminState` is still 0 receives a
`SHARED_STATE_UPDATE` unicast carrying 0. -/
theorem find_or_create_initial_state (st : ServerState) (gid pin pin' : String)
    (g : GameState) (c : Conn) (pid nick : String) :
    (mapGet st.games gid = none →
      findOrCreateGame st gid pin =
        ({ st with games := mapSet st.games gid (freshGame gid pin) },
         freshGame gid pin) ∧
      (freshGame gid pin).sharedAdminState = 0 ∧
      (freshGame gid pin).gamePhase = GamePhase.lobby ∧
      (freshGame gid pin).players = [] ∧
      (freshGame gid pin).currentQuestionIndex = -1 ∧
      (freshGame gid pin).hostWs = none ∧
      (freshGame gid pin).gamePin = pin) ∧
    (mapGet st.games gid = some g → findOrCreateGame st gid pin' = (st, g)) ∧
    (mapGet st.games gid = some g → g.sharedAdminState = 0 → gid ≠ "" →
      pid ≠ "" → nick ≠ "" → c ∈ st.openConns →
      Step.wsSend c (ServerMsg.sharedStateUpdate 0) ∈
        (handleMessage st c
          (ClientMsg.playerIdentify (some gid) (some pid) (some nick))).2) := by
  refine ⟨?_, ?_, ?_⟩
  · intro hnone
    refine ⟨?_, rfl, rfl, rfl, rfl, rfl, rfl⟩
    simp [findOrCreateGame, hnone]
  · intro hg
    simp [findOrCreateGame, hg]
  · intro hg hshared hgid hpid hnick hopen
    have := identify_sends_sharedState st c gid pid nick g hgid hpid hnick hg hopen
    rw [hshared] at this
    exact this

def gameW10 : GameState :=
  { gameId := "g", gamePin := "P", hostWs := some 0, players := [],
    currentQuestionIndex := -1, gamePhase := GamePhase.lobby, sharedAdminState := 0 }

def stW10 : ServerState :=
  { games := [("g", gameW10)]
    wsClientMap := [(0, ⟨"g", "host_g", true⟩)]
    openConns := [0, 1] }

def stW10e : ServerState := { games := [], wsClientMap := [], openConns := [0, 1] }

/-- Witness for C10: creation from an empty store, an unchanged lookup under
a different pin, and the `SHARED_STATE_UPDATE{0}` unicast to a first
identifying participant. -/
theorem find_or_create_initial_state_witness :
    (findOrCreateGame stW10e "g" "P" =
        ({ stW10e with games := mapSet stW10e.games "g" (freshGame "g" "P") },
         freshGame "g" "P") ∧
      (freshGame "g" "P").sharedAdminState = 0 ∧
      (freshGame "g" "P").gamePhase = GamePhase.lobby ∧
      (freshGame "g" "P").players = [] ∧
      (freshGame "g" "P").currentQuestionIndex = -1 ∧
      (freshGame "g" "P").hostWs = none ∧
      (freshGame "g" "P").gamePin = "P") ∧
    (findOrCreateGame stW10 "g" "QQQ" = (stW10, gameW10)) ∧
    (Step.wsSend 1 (ServerMsg.sharedStateUpdate 0) ∈
      (handleMessage stW10 1
        (ClientMsg.playerIdentify (some "g") (some "p1") (some "Alice"))).2) :=
  ⟨(find_or_create_initial_state stW10e "g" "P" "P" gameW10 1 "p1" "Alice").1
      (by decide),
   (find_or_create_initial_state stW10 "g" "P" "QQQ" gameW10 1 "p1" "Alice").2.1
      (by decide),
   (find_or_create_initial_state stW10 "g" "P" "QQQ" gameW10 1 "p1" "Alice").2.2
      (by decide) (by decide) (by decide) (by decide) (by decide) (by decide)⟩

def gameW9 : GameState :=
  { gameId := "g", gamePin := "P", hostWs := some 0, players := [],
    currentQuestionIndex := -1, gamePhase := GamePhase.lobby, sharedAdminState := 0 }

def stW9 : ServerState :=
  { games := [("g", gameW9)]
    wsClientMap := [(0, ⟨"g", "host_g", true⟩)]
    openConns := [0] }

/-- Counterexample to claim C9: connection 0 is associated in the registry as
the host of session "g", yet a `PLAYER_IDENTIFY` requesting the different
identity "p1" in the same session is not rejected with any error — the entry
is silently overwritten with the new identity. -/
theorem registry_silent_identity_switch :
    mapGet stW9.wsClientMap 0 = some ⟨"g", "host_g", true⟩ ∧
    (handleMessage stW9 0
        (ClientMsg.playerIdentify (some "g") (some "p1") (some "Eve"))).1.wsClientMap
      = [(0, ⟨"g", "p1", false⟩)] ∧
    ((handleMessage stW9 0
        (ClientMsg.playerIdentify (some "g") (some "p1") (some "Eve"))).2.all
      (fun s => match s with
        | Step.wsSend _ (ServerMsg.errorMsg _) => false
        | _ => true)) = true := by
  decide

/-- Claim C9 (amended): registering a connection never fails with a conflict:
on any successful `HOST_JOIN` or `PLAYER_IDENTIFY` the registry entry for the
connection is unconditionally overwritten (`Map.set`) with the requested
identity, whatever association — same or different — existed before; no
`ConflictError` exists in the code, so a connection can silently switch
identities. -/
theorem registry_overwrites_unconditionally (st : ServerState) (c : Conn)
    (gid pin pid nick : String) (g : GameState)
    (hgid : gid ≠ "") (hpin : pin ≠ "") (hpid : pid ≠ "") (hnick : nick ≠ "") :
    ((findOrCreateGame st gid pin).2.hostWs = none ∨
        (findOrCreateGame st gid pin).2.hostWs = some c →
      (handleMessage st c (ClientMsg.hostJoin (some gid) (some pin))).1.wsClientMap
        = mapSet st.wsClientMap c ⟨gid, "host_" ++ gid, true⟩) ∧
    (mapGet st.games gid = some g →
      (handleMessage st c
          (ClientMsg.playerIdentify (some gid) (some pid) (some nick))).1.wsClientMap
        = mapSet st.wsClientMap c ⟨gid, pid, false⟩) := by
  have hreg : (findOrCreateGame st gid pin).1.wsClientMap = st.wsClientMap := by
    unfold findOrCreateGame
    cases mapGet st.games gid <;> rfl
  constructor
  · rintro (hw | hw) <;>
      simp [handleMessage, handleHostJoin, hgid, hpin, hw, hostJoinSuccess, hreg]
  · intro hg
    cases hp : mapGet g.players pid <;>
      simp [handleMessage, handlePlayerIdentify, hgid, hpid, hnick, hg, hp]

/-- Witness for the amended C9: the same-connection re-join and the
identity-switching identify both just overwrite the registry entry. -/
theorem registry_overwrites_unconditionally_witness :
    ((handleMessage stW9 0 (ClientMsg.hostJoin (some "g") (some "P"))).1.wsClientMap
       = mapSet stW9.wsClientMap 0 ⟨"g", "host_" ++ "g", true⟩) ∧
    ((handleMessage stW9 0
        (ClientMsg.playerIdentify (some "g") (some "p1") (some "Eve"))).1.wsClientMap
       = mapSet stW9.wsClientMap 0 ⟨"g", "p1", false⟩) :=
  ⟨(registry_overwrites_unconditionally stW9 0 "g" "P" "p1" "Eve" gameW9
      (by decide) (by decide) (by decide) (by decide)).1 (Or.inr (by decide)),
   (registry_overwrites_unconditionally stW9 0 "g" "P" "p1" "Eve" gameW9
      (by decide) (by decide) (by decide) (by decide)).2 (by decide)⟩

def gameW5 : GameState :=
  { gameId := "g", gamePin := "P", hostWs := some 0, players := [],
    currentQuestionIndex := -1, gamePhase := GamePhase.lobby, sharedAdminState := 0 }

def stW5 : ServerState :=
  { games := [("g", gameW5)]
    wsClientMap := [(0, ⟨"g", "host_g", true⟩)]
    openConns := [0] }

/-- The rational number 5/2, given by an explicit reduced
numerator/denominator pair. -/
def fiveHalves : Rat := ⟨5, 2, by decide, by decide⟩

/-- Counterexample to claim C5: `newState = 5/2` is a number but not an
integer, yet `ADMIN_UPDATE_SHARED_STATE` does not fail with any error — it
succeeds, stores the non-integral value in `sharedAdminState` and broadcasts
it.  The source's guard is `typeof newState !== 'number'`, not an
integrality check. -/
theorem admin_update_accepts_nonintegral_number :
    fiveHalves.den ≠ 1 ∧
    handleMessage stW5 0
        (ClientMsg.adminUpdateSharedState (some (JsVal.num fiveHalves))) =
      ({ stW5 with games := [("g", { gameW5 with sharedAdminState := fiveHalves })] },
       [Step.wsSend 0 (ServerMsg.sharedStateUpdate fiveHalves)]) := by
  constructor
  · decide
  · decide

/-- Claim C5 (amended): `ADMIN_UPDATE_SHARED_STATE` fails with an
`Unauthorized` error when the caller is not registered as the host; fails
with an `InvalidValue` error when `newState` is not a *number* (any number,
integral or not, is accepted); on success it overwrites `sharedAdminState`
with the payload value and broadcasts `SHARED_STATE_UPDATE` carrying it to
exactly the open connections of the session — host and every connected
participant — unconditionally; and a participant that identifies afterwards
receives the updated value in its identify unicast. -/
theorem admin_update_behavior (st : ServerState) (c c' : Conn)
    (ci : ClientInfo) (g : GameState) (v : Option JsVal) (q : Rat)
    (pid nick : String) :
    (mapGet st.wsClientMap c = none →
      handleMessage st c (ClientMsg.adminUpdateSharedState v) =
        (st, send st c (ServerMsg.errorMsg "Only the host can update the state."))) ∧
    (mapGet st.wsClientMap c = some ci → ci.isHost = false →
      handleMessage st c (ClientMsg.adminUpdateSharedState v) =
        (st, send st c (ServerMsg.errorMsg "Only the host can update the state."))) ∧
    (mapGet st.wsClientMap c = some ci → ci.isHost = true →
      mapGet st.games ci.gameId = some g → (∀ q', v ≠ some (JsVal.num q')) →
      handleMessage st c (ClientMsg.adminUpdateSharedState v) =
        (st, send st c (ServerMsg.errorMsg "Invalid state value."))) ∧
    (mapGet st.wsClientMap c = some ci → ci.isHost = true →
      mapGet st.games ci.gameId = some g → v = some (JsVal.num q) →
      mapGet (handleMessage st c (ClientMsg.adminUpdateSharedState v)).1.games
          ci.gameId = some { g with sharedAdminState := q } ∧
      (∀ w m', Step.wsSend w m'
          ∈ (handleMessage st c (ClientMsg.adminUpdateSharedState v)).2 ↔
        (m' = ServerMsg.sharedStateUpdate q ∧ w ∈ st.openConns ∧
          (g.hostWs = some w ∨ ∃ pr ∈ g.players, pr.2.ws = some w)))) ∧
    (mapGet st.wsClientMap c = some ci → ci.isHost = true →
      mapGet st.games ci.gameId = some g → v = some (JsVal.num q) →
      ci.gameId ≠ "" → pid ≠ "" → nick ≠ "" → c' ∈ st.openConns →
      Step.wsSend c' (ServerMsg.sharedStateUpdate q) ∈
        (handleMessage (handleMessage st c (ClientMsg.adminUpdateSharedState v)).1
          c' (ClientMsg.playerIdentify
                (some ci.gameId) (some pid) (some nick))).2) := by
  refine ⟨?_, ?_, ?_, ?_, ?_⟩
  · intro hci
    simp [handleMessage, handleAdminUpdate, hci]
  · intro hci hh
    simp [handleMessage, handleAdminUpdate, hci, hh]
  · intro hci hh hg hv
    cases v with
    | none => simp [handleMessage, handleAdminUpdate, hci, hh, hg]
    | some jv =>
        cases jv with
        | num q' => exact absurd rfl (hv q')
        | str s => simp [handleMessage, handleAdminUpdate, hci, hh, hg]
        | boolVal b => simp [handleMessage, handleAdminUpdate, hci, hh, hg]
        | nullVal => simp [handleMessage, handleAdminUpdate, hci, hh, hg]
  · intro hci hh hg hv
    subst hv
    set g1 : GameState := { g with sharedAdminState := q } with hg1
    set st1 : ServerState := { st with games := mapSet st.games ci.gameId g1 }
      with hst1
    have hmain : handleMessage st c
        (ClientMsg.adminUpdateSharedState (some (JsVal.num q))) =
        (st1, broadcast st1 ci.gameId (ServerMsg.sharedStateUpdate q) none) := by
      rw [hst1, hg1]
      simp [handleMessage, handleAdminUpdate, hci, hh, hg, sendSharedStateUpdate,
        mapGet_mapSet_self]
    have hget : mapGet st1.games ci.gameId = some g1 := by
      rw [hst1]
      exact mapGet_mapSet_self _ _ _
    constructor
    · rw [hmain]
      exact hget
    · intro w m'
      rw [hmain, wsSend_mem_broadcast]
      have hopen1 : st1.openConns = st.openConns := by rw [hst1]
      constructor
      · rintro ⟨rfl, g', hg', _, hop, hsrc⟩
        obtain rfl : g1 = g' := Option.some.inj (hget.symm.trans hg')
        rw [hopen1] at hop
        exact ⟨rfl, hop, hsrc⟩
      · rintro ⟨rfl, hop, hsrc⟩
        rw [← hopen1] at hop
        exact ⟨rfl, g1, hget, by simp, hop, hsrc⟩
  · intro hci hh hg hv hgid hpid hnick hopen'
    subst hv
    set g1 : GameState := { g with sharedAdminState := q } with hg1
    set st1 : ServerState := { st with games := mapSet st.games ci.gameId g1 }
      with hst1
    have hmain : (handleMessage st c
        (ClientMsg.adminUpdateSharedState (some (JsVal.num q)))).1 = st1 := by
      rw [hst1, hg1]
      simp [handleMessage, handleAdminUpdate, hci, hh, hg, sendSharedStateUpdate,
        mapGet_mapSet_self]
    rw [hmain]
    have hget : mapGet st1.games ci.gameId = some g1 := by
      rw [hst1]
      exact mapGet_mapSet_self _ _ _
    have hopen1 : c' ∈ st1.openConns := by rw [hst1]; exact hopen'
    have := identify_sends_sharedState st1 c' ci.gameId pid nick g1
      hgid hpid hnick hget hopen1
    have hq1 : g1.sharedAdminState = q := by rw [hg1]
    rw [hq1] at this
    exact this

def playerW5 : Player := { id := "p1", nickname := "Alice", score := 0, ws := some 1 }

def gameW5b : GameState :=
  { gameId := "g", gamePin := "P", hostWs := some 0, players := [("p1", playerW5)],
    currentQuestionIndex := -1, gamePhase := GamePhase.lobby, sharedAdminState := 0 }

def stW5b : ServerState :=
  { games := [("g", gameW5b)]
    wsClientMap := [(0, ⟨"g", "host_g", true⟩), (1, ⟨"g", "p1", false⟩)]
    openConns := [0, 1, 2] }

/-- Witness for the amended C5 at `newState = 5`: the update is stored, the
broadcast reaches host and player, and a later identify by connection 2
receives the updated value. -/
theorem admin_update_behavior_witness :
    (mapGet (handleMessage stW5b 0
        (ClientMsg.adminUpdateSharedState (some (JsVal.num 5)))).1.games "g" =
      some { gameW5b with sharedAdminState := 5 }) ∧
    (Step.wsSend 0 (ServerMsg.sharedStateUpdate 5) ∈
      (handleMessage stW5b 0
        (ClientMsg.adminUpdateSharedState (some (JsVal.num 5)))).2) ∧
    (Step.wsSend 1 (ServerMsg.sharedStateUpdate 5) ∈
      (handleMessage stW5b 0
        (ClientMsg.adminUpdateSharedState (some (JsVal.num 5)))).2) ∧
    (Step.wsSend 2 (ServerMsg.sharedStateUpdate 5) ∈
      (handleMessage (handleMessage stW5b 0
          (ClientMsg.adminUpdateSharedState (some (JsVal.num 5)))).1
        2 (ClientMsg.playerIdentify (some "g") (some "p9") (some "Carol"))).2) ∧
    (handleMessage stW5b 1 (ClientMsg.adminUpdateSharedState (some (JsVal.num 5))) =
      (stW5b, send stW5b 1 (ServerMsg.errorMsg "Only the host can update the state."))) ∧
    (handleMessage stW5b 0 (ClientMsg.adminUpdateSharedState (some (JsVal.str "x"))) =
      (stW5b, send stW5b 0 (ServerMsg.errorMsg "Invalid state value."))) :=
  ⟨((admin_update_behavior stW5b 0 2 ⟨"g", "host_g", true⟩ gameW5b
      (some (JsVal.num 5)) 5 "p9" "Carol").2.2.2.1
      (by decide) rfl (by decide) rfl).1,
   (((admin_update_behavior stW5b 0 2 ⟨"g", "host_g", true⟩ gameW5b
      (some (JsVal.num 5)) 5 "p9" "Carol").2.2.2.1
      (by decide) rfl (by decide) rfl).2 0 (ServerMsg.sharedStateUpdate 5)).mpr
      ⟨rfl, by decide, Or.inl (by decide)⟩,
   (((admin_update_behavior stW5b 0 2 ⟨"g", "host_g", true⟩ gameW5b
      (some (JsVal.num 5)) 5 "p9" "Carol").2.2.2.1
      (by decide) rfl (by decide) rfl).2 1 (ServerMsg.sharedStateUpdate 5)).mpr
      ⟨rfl, by decide, Or.inr ⟨("p1", playerW5), by decide, by decide⟩⟩,
   (admin_update_behavior stW5b 0 2 ⟨"g", "host_g", true⟩ gameW5b
      (some (JsVal.num 5)) 5 "p9" "Carol").2.2.2.2
      (by decide) rfl (by decide) rfl (by decide) (by decide) (by decide) (by decide),
   (admin_update_behavior stW5b 1 2 ⟨"g", "p1", false⟩ gameW5b
      (some (JsVal.num 5)) 5 "p9" "Carol").2.1 (by decide) rfl,
   (admin_update_behavior stW5b 0 2 ⟨"g", "host_g", true⟩ gameW5b
      (some (JsVal.str "x")) 5 "p9" "Carol").2.2.1 (by decide) rfl (by decide)
      (fun q' h => by simp at h)⟩

def gameW6 : GameState :=
  { gameId := "g", gamePin := "P", hostWs := some 0, players := [],
    currentQuestionIndex := 0, gamePhase := GamePhase.question, sharedAdminState := 0 }

def stW6 : ServerState :=
  { games := [("g", gameW6)]
    wsClientMap := [(0, ⟨"g", "host_g", true⟩)]
    openConns := [0] }

/-- Counterexample to claim C6: a `START_GAME` from the registered host while
the session's phase is `question` (not `lobby`) produces no reply at all —
the source's non-lobby guard is a bare `return`, so no `InvalidPhase` error
message is ever sent. -/
theorem start_game_nonlobby_is_silent :
    gameW6.gamePhase ≠ GamePhase.lobby ∧
    handleMessage stW6 0 ClientMsg.startGame = (stW6, []) := by
  constructor
  · decide
  · decide

/-- Claim C6 (amended): `START_GAME` replies with an `Unauthorized` error
when the caller is not registered as a host; when the caller is a registered
host but the session's phase is not `lobby` the message is *silently
dropped* — no reply, no state change; on success (registered host, session
present, phase `lobby`) it sets `gamePhase := question` and
`currentQuestionIndex := 0`, changes nothing else, and emits the
`GAME_STARTED` broadcast followed by the `SHOW_QUESTION` broadcast with
index 0, each delivered to exactly the open connections of the session. -/
theorem start_game_behavior (st : ServerState) (c : Conn) (ci : ClientInfo)
    (g : GameState) :
    (mapGet st.wsClientMap c = none →
      handleMessage st c ClientMsg.startGame =
        (st, send st c (ServerMsg.errorMsg "Only the host can start the game."))) ∧
    (mapGet st.wsClientMap c = some ci → ci.isHost = false →
      handleMessage st c ClientMsg.startGame =
        (st, send st c (ServerMsg.errorMsg "Only the host can start the game."))) ∧
    (mapGet st.wsClientMap c = some ci → ci.isHost = true →
      mapGet st.games ci.gameId = some g → g.gamePhase ≠ GamePhase.lobby →
      handleMessage st c ClientMsg.startGame = (st, [])) ∧
    (mapGet st.wsClientMap c = some ci → ci.isHost = true →
      mapGet st.games ci.gameId = some g → g.gamePhase = GamePhase.lobby →
      mapGet (handleMessage st c ClientMsg.startGame).1.games ci.gameId =
        some { g with gamePhase := GamePhase.question, currentQuestionIndex := 0 } ∧
      (∀ gid', gid' ≠ ci.gameId →
        mapGet (handleMessage st c ClientMsg.startGame).1.games gid'
          = mapGet st.games gid') ∧
      (handleMessage st c ClientMsg.startGame).1.wsClientMap = st.wsClientMap ∧
      ∃ pre post, (handleMessage st c ClientMsg.startGame).2 = pre ++ post ∧
        (∀ w m', Step.wsSend w m' ∈ pre ↔
          (m' = ServerMsg.gameStarted ∧ w ∈ st.openConns ∧
            (g.hostWs = some w ∨ ∃ pr ∈ g.players, pr.2.ws = some w))) ∧
        (∀ w m', Step.wsSend w m' ∈ post ↔
          (m' = questionMsg 0 ∧ w ∈ st.openConns ∧
            (g.hostWs = some w ∨ ∃ pr ∈ g.players, pr.2.ws = some w)))) := by
  refine ⟨?_, ?_, ?_, ?_⟩
  · intro hci
    simp [handleMessage, handleStartGame, hci]
  · intro hci hh
    simp [handleMessage, handleStartGame, hci, hh]
  · intro hci hh hg hph
    simp [handleMessage, handleStartGame, hci, hh, hg, hph]
  · intro hci hh hg hph
    set g1 : GameState :=
      { g with gamePhase := GamePhase.question, currentQuestionIndex := 0 } with hg1
    set st1 : ServerState := { st with games := mapSet st.games ci.gameId g1 }
      with hst1
    have hget : mapGet st1.games ci.gameId = some g1 := by
      rw [hst1]
      exact mapGet_mapSet_self _ _ _
    have hmain : handleMessage st c ClientMsg.startGame =
        (st1, broadcast st1 ci.gameId ServerMsg.gameStarted none ++
              broadcast st1 ci.gameId (questionMsg 0) none) := by
      rw [hst1, hg1]
      simp [handleMessage, handleStartGame, sendQuestion, hci, hh, hg, hph,
        mapGet_mapSet_self]
    have hopen1 : st1.openConns = st.openConns := by rw [hst1]
    have hhost1 : g1.hostWs = g.hostWs := by rw [hg1]
    have hplayers1 : g1.players = g.players := by rw [hg1]
    refine ⟨?_, ?_, ?_,
      broadcast st1 ci.gameId ServerMsg.gameStarted none,
      broadcast st1 ci.gameId (questionMsg 0) none, ?_, ?_, ?_⟩
    · rw [hmain]
      exact hget
    · intro gid' h'
      rw [hmain, hst1]
      exact mapGet_mapSet_ne _ _ _ _ h'
    · rw [hmain, hst1]
    · rw [hmain]
    · intro w m'
      rw [wsSend_mem_broadcast]
      constructor
      · rintro ⟨rfl, g', hg', _, hop, hsrc⟩
        obtain rfl : g1 = g' := Option.some.inj (hget.symm.trans hg')
        rw [hopen1] at hop
        rw [hhost1, hplayers1] at hsrc
        exact ⟨rfl, hop, hsrc⟩
      · rintro ⟨rfl, hop, hsrc⟩
        rw [← hopen1] at hop
        rw [← hhost1, ← hplayers1] at hsrc
        exact ⟨rfl, g1, hget, by simp, hop, hsrc⟩
    · intro w m'
      rw [wsSend_mem_broadcast]
      constructor
      · rintro ⟨rfl, g', hg', _, hop, hsrc⟩
        obtain rfl : g1 = g' := Option.some.inj (hget.symm.trans hg')
        rw [hopen1] at hop
        rw [hhost1, hplayers1] at hsrc
        exact ⟨rfl, hop, hsrc⟩
      · rintro ⟨rfl, hop, hsrc⟩
        rw [← hopen1] at hop
        rw [← hhost1, ← hplayers1] at hsrc
        exact ⟨rfl, g1, hget, by simp, hop, hsrc⟩

def playerW6 : Player := { id := "p1", nickname := "Alice", score := 0, ws := some 1 }

def gameW6b : GameState :=
  { gameId := "g", gamePin := "P", hostWs := some 0, players := [("p1", playerW6)],
    currentQuestionIndex := -1, gamePhase := GamePhase.lobby, sharedAdminState := 0 }

def stW6b : ServerState :=
  { games := [("g", gameW6b)]
    wsClientMap := [(0, ⟨"g", "host_g", true⟩), (1, ⟨"g", "p1", false⟩)]
    openConns := [0, 1] }

/-- Witness for the amended C6 at a concrete lobby start: phase flips to
question, both open connections get `GAME_STARTED` and the index-0 question,
and a non-host caller is refused. -/
theorem start_game_behavior_witness :
    (mapGet (handleMessage stW6b 0 ClientMsg.startGame).1.games "g" =
      some { gameW6b with gamePhase := GamePhase.question, currentQuestionIndex := 0 }) ∧
    (∃ pre post, (handleMessage stW6b 0 ClientMsg.startGame).2 = pre ++ post ∧
      (∀ w m', Step.wsSend w m' ∈ pre ↔
        (m' = ServerMsg.gameStarted ∧ w ∈ stW6b.openConns ∧
          (gameW6b.hostWs = some w ∨ ∃ pr ∈ gameW6b.players, pr.2.ws = some w))) ∧
      (∀ w m', Step.wsSend w m' ∈ post ↔
        (m' = questionMsg 0 ∧ w ∈ stW6b.openConns ∧
          (gameW6b.hostWs = some w ∨ ∃ pr ∈ gameW6b.players, pr.2.ws = some w)))) ∧
    (handleMessage stW6b 1 ClientMsg.startGame =
      (stW6b, send stW6b 1 (ServerMsg.errorMsg "Only the host can start the game."))) :=
  ⟨((start_game_behavior stW6b 0 ⟨"g", "host_g", true⟩ gameW6b).2.2.2
      (by decide) rfl (by decide) rfl).1,
   ((start_game_behavior stW6b 0 ⟨"g", "host_g", true⟩ gameW6b).2.2.2
      (by decide) rfl (by decide) rfl).2.2.2,
   (start_game_behavior stW6b 1 ⟨"g", "p1", false⟩ gameW6b).2.1 (by decide) rfl⟩

/-! ### How each handler can change the `games` store (for the phase
machine invariant) -/

/-- `HOST_JOIN` either leaves a given store entry alone, creates it fresh
(with the caller as host), or sets `hostWs` on the existing entry. -/
theorem handleHostJoin_games (st : ServerState) (c : Conn)
    (a b : Option String) (gid : String) :
    mapGet (handleHostJoin st c a b).1.games gid = mapGet st.games gid ∨
    (mapGet st.games gid = none ∧ ∃ pin,
      mapGet (handleHostJoin st c a b).1.games gid =
        some { freshGame gid pin with hostWs := some c }) ∨
    (∃ g, mapGet st.games gid = some g ∧
      mapGet (handleHostJoin st c a b).1.games gid =
        some { g with hostWs := some c }) := by
  cases a with
  | none => left; rfl
  | some gid' =>
    cases b with
    | none => left; rfl
    | some pin =>
      by_cases hguard : gid' = "" ∨ pin = ""
      · left
        simp [handleHostJoin, hguard]
      · push_neg at hguard
        obtain ⟨hgid', hpin⟩ := hguard
        cases hsg : mapGet st.games gid' with
        | some g0 =>
            have hfc : findOrCreateGame st gid' pin = (st, g0) := by
              simp [findOrCreateGame, hsg]
            cases hws : g0.hostWs with
            | some h =>
                by_cases hhc : h = c
                · have hmain : (handleHostJoin st c (some gid') (some pin)).1.games =
                      mapSet st.games gid' { g0 with hostWs := some c } := by
                    simp [handleHostJoin, hgid', hpin, hfc, hws, hhc, hostJoinSuccess]
                  by_cases hgg : gid = gid'
                  · subst hgg
                    right; right
                    exact ⟨g0, hsg, by rw [hmain]; exact mapGet_mapSet_self _ _ _⟩
                  · left
                    rw [hmain]
                    exact mapGet_mapSet_ne _ _ _ _ hgg
                · left
                  simp [handleHostJoin, hgid', hpin, hfc, hws, hhc]
            | none =>
                have hmain : (handleHostJoin st c (some gid') (some pin)).1.games =
                    mapSet st.games gid' { g0 with hostWs := some c } := by
                  simp [handleHostJoin, hgid', hpin, hfc, hws, hostJoinSuccess]
                by_cases hgg : gid = gid'
                · subst hgg
                  right; right
                  exact ⟨g0, hsg, by rw [hmain]; exact mapGet_mapSet_self _ _ _⟩
                · left
                  rw [hmain]
                  exact mapGet_mapSet_ne _ _ _ _ hgg
        | none =>
            have hfc : findOrCreateGame st gid' pin =
                ({ st with games := mapSet st.games gid' (freshGame gid' pin) },
                 freshGame gid' pin) := by
              simp [findOrCreateGame, hsg]
            have hws : (freshGame gid' pin).hostWs = none := rfl
            have hmain : (handleHostJoin st c (some gid') (some pin)).1.games =
                mapSet (mapSet st.games gid' (freshGame gid' pin)) gid'
                  { freshGame gid' pin with hostWs := some c } := by
              simp [handleHostJoin, hgid', hpin, hfc, hws, hostJoinSuccess]
            by_cases hgg : gid = gid'
            · subst hgg
              right; left
              refine ⟨hsg, pin, ?_⟩
              rw [hmain]
              exact mapGet_mapSet_self _ _ _
            · left
              rw [hmain, mapGet_mapSet_ne _ _ _ _ hgg, mapGet_mapSet_ne _ _ _ _ hgg]

/-- `PLAYER_IDENTIFY` either leaves a given store entry alone or rewrites
only its `players` map. -/
theorem handlePlayerIdentify_games (st : ServerState) (c : Conn)
    (a b d : Option String) (gid : String) :
    mapGet (handlePlayerIdentify st c a b d).1.games gid = mapGet st.games gid ∨
    ∃ g pid p, mapGet st.games gid = some g ∧
      mapGet (handlePlayerIdentify st c a b d).1.games gid =
        some { g with players := mapSet g.players pid p } := by
  cases a with
  | none => left; rfl
  | some gid' =>
    cases b with
    | none => left; rfl
    | some pid' =>
      cases d with
      | none => left; rfl
      | some nick =>
        by_cases hguard : gid' = "" ∨ pid' = "" ∨ nick = ""
        · left
          simp [handlePlayerIdentify, hguard]
        · push_neg at hguard
          obtain ⟨hgid', hpid', hnick⟩ := hguard
          cases hsg : mapGet st.games gid' with
          | none =>
              left
              simp [handlePlayerIdentify, hgid', hpid', hnick, hsg]
          | some g0 =>
              cases hp : mapGet g0.players pid' with
              | none =>
                  obtain ⟨p1, hp1⟩ : ∃ p1 : Player,
                      p1 = { id := pid', nickname := nick, score := 0, ws := some c } :=
                    ⟨_, rfl⟩
                  have hmain : (handlePlayerIdentify st c
                      (some gid') (some pid') (some nick)).1.games =
                      mapSet st.games gid'
                        { g0 with players := mapSet g0.players pid' p1 } := by
                    rw [hp1]
                    simp [handlePlayerIdentify, hgid', hpid', hnick, hsg, hp]
                  by_cases hgg : gid = gid'
                  · subst hgg
                    right
                    exact ⟨g0, pid', p1, hsg,
                      by rw [hmain]; exact mapGet_mapSet_self _ _ _⟩
                  · left
                    rw [hmain]
                    exact mapGet_mapSet_ne _ _ _ _ hgg
              | some p0 =>
                  obtain ⟨p1, hp1⟩ : ∃ p1 : Player,
                      p1 = { p0 with ws := some c } := ⟨_, rfl⟩
                  have hmain : (handlePlayerIdentify st c
                      (some gid') (some pid') (some nick)).1.games =
                      mapSet st.games gid'
                        { g0 with players := mapSet g0.players pid' p1 } := by
                    rw [hp1]
                    simp [handlePlayerIdentify, hgid', hpid', hnick, hsg, hp]
                  by_cases hgg : gid = gid'
                  · subst hgg
                    right
                    exact ⟨g0, pid', p1, hsg,
                      by rw [hmain]; exact mapGet_mapSet_self _ _ _⟩
                  · left
                    rw [hmain]
                    exact mapGet_mapSet_ne _ _ _ _ hgg

/-- `START_GAME` either leaves a given store entry alone or advances it from
`lobby` to `question` with index 0. -/
theorem handleStartGame_games (st : ServerState) (c : Conn) (gid : String) :
    mapGet (handleStartGame st c).1.games gid = mapGet st.games gid ∨
    ∃ g, mapGet st.games gid = some g ∧ g.gamePhase = GamePhase.lobby ∧
      mapGet (handleStartGame st c).1.games gid =
        some { g with gamePhase := GamePhase.question, currentQuestionIndex := 0 } := by
  cases hci : mapGet st.wsClientMap c with
  | none => left; simp [handleStartGame, hci]
  | some ci =>
      by_cases hh : ci.isHost = true
      · cases hsg : mapGet st.games ci.gameId with
        | none => left; simp [handleStartGame, hci, hh, hsg]
        | some g0 =>
            by_cases hph : g0.gamePhase = GamePhase.lobby
            · have hmain : (handleStartGame st c).1.games =
                  mapSet st.games ci.gameId
                    { g0 with gamePhase := GamePhase.question,
                              currentQuestionIndex := 0 } := by
                simp [handleStartGame, hci, hh, hsg, hph]
              by_cases hgg : gid = ci.gameId
              · subst hgg
                right
                exact ⟨g0, hsg, hph, by rw [hmain]; exact mapGet_mapSet_self _ _ _⟩
              · left
                rw [hmain]
                exact mapGet_mapSet_ne _ _ _ _ hgg
            · left
              simp [handleStartGame, hci, hh, hsg, hph]
      · left
        simp [handleStartGame, hci, hh]

/-- `ADMIN_UPDATE_SHARED_STATE` either leaves a given store entry alone or
rewrites only its `sharedAdminState`. -/
theorem handleAdminUpdate_games (st : ServerState) (c : Conn)
    (v : Option JsVal) (gid : String) :
    mapGet (handleAdminUpdate st c v).1.games gid = mapGet st.games gid ∨
    ∃ g q, mapGet st.games gid = some g ∧
      mapGet (handleAdminUpdate st c v).1.games gid =
        some { g with sharedAdminState := q } := by
  cases hci : mapGet st.wsClientMap c with
  | none => left; simp [handleAdminUpdate, hci]
  | some ci =>
      by_cases hh : ci.isHost = true
      · cases hsg : mapGet st.games ci.gameId with
        | none => left; simp [handleAdminUpdate, hci, hh, hsg]
        | some g0 =>
            cases v with
            | none => left; simp [handleAdminUpdate, hci, hh, hsg]
            | some jv =>
                cases jv with
                | num q =>
                    have hmain : (handleAdminUpdate st c (some (JsVal.num q))).1.games =
                        mapSet st.games ci.gameId
                          { g0 with sharedAdminState := q } := by
                      simp [handleAdminUpdate, hci, hh, hsg]
                    by_cases hgg : gid = ci.gameId
                    · subst hgg
                      right
                      exact ⟨g0, q, hsg, by rw [hmain]; exact mapGet_mapSet_self _ _ _⟩
                    · left
                      rw [hmain]
                      exact mapGet_mapSet_ne _ _ _ _ hgg
                | str s => left; simp [handleAdminUpdate, hci, hh, hsg]
                | boolVal bv => left; simp [handleAdminUpdate, hci, hh, hsg]
                | nullVal => left; simp [handleAdminUpdate, hci, hh, hsg]
      · left
        simp [handleAdminUpdate, hci, hh]

/-- `SUBMIT_ANSWER` never changes the server state. -/
theorem handleSubmitAnswer_state (st : ServerState) (c : Conn) :
    (handleSubmitAnswer st c).1 = st := by
  cases hci : mapGet st.wsClientMap c with
  | none => simp [handleSubmitAnswer, hci]
  | some ci =>
      by_cases hh : ci.isHost = true
      · simp [handleSubmitAnswer, hci, hh]
      · cases hsg : mapGet st.games ci.gameId with
        | none => simp [handleSubmitAnswer, hci, hh, hsg]
        | some g0 =>
            cases hp : mapGet g0.players ci.clientId with
            | none => simp [handleSubmitAnswer, hci, hh, hsg, hp]
            | some p =>
                by_cases hq : g0.gamePhase = GamePhase.question
                · simp [handleSubmitAnswer, hci, hh, hsg, hp, hq]
                · simp [handleSubmitAnswer, hci, hh, hsg, hp, hq]

/-- A socket close either leaves a given store entry alone, removes it
(host teardown), or rewrites only its `players` map (player disconnect). -/
theorem handleClose_games (dbOk : Bool) (st : ServerState) (c : Conn)
    (gid : String) :
    mapGet (handleClose dbOk st c).1.games gid = mapGet st.games gid ∨
    mapGet (handleClose dbOk st c).1.games gid = none ∨
    ∃ g pid p, mapGet st.games gid = some g ∧
      mapGet (handleClose dbOk st c).1.games gid =
        some { g with players := mapSet g.players pid p } := by
  cases hci : mapGet st.wsClientMap c with
  | none => left; simp [handleClose, hci]
  | some ci =>
      cases hsg : mapGet st.games ci.gameId with
      | none => left; simp [handleClose, hci, hsg]
      | some g0 =>
          by_cases hh : ci.isHost = true
          · have hmain : (handleClose dbOk st c).1.games =
                mapDelete (mapSet st.games ci.gameId { g0 with hostWs := none })
                  ci.gameId := by
              simp [handleClose, hci, hsg, hh, hostTeardown]
            by_cases hgg : gid = ci.gameId
            · subst hgg
              right; left
              rw [hmain]
              exact mapGet_mapDelete_self _ _
            · left
              rw [hmain, mapGet_mapDelete_ne _ _ _ hgg, mapGet_mapSet_ne _ _ _ _ hgg]
          · cases hp : mapGet g0.players ci.clientId with
            | none => left; simp [handleClose, hci, hsg, hh, hp]
            | some p0 =>
                obtain ⟨p1, hp1⟩ : ∃ p1 : Player, p1 = { p0 with ws := none } :=
                  ⟨_, rfl⟩
                have hmain : (handleClose dbOk st c).1.games =
                    mapSet st.games ci.gameId
                      { g0 with players := mapSet g0.players ci.clientId p1 } := by
                  rw [hp1]
                  simp [handleClose, hci, hsg, hh, hp]
                by_cases hgg : gid = ci.gameId
                · subst hgg
                  right; right
                  exact ⟨g0, ci.clientId, p1, hsg,
                    by rw [hmain]; exact mapGet_mapSet_self _ _ _⟩
                · left
                  rw [hmain]
                  exact mapGet_mapSet_ne _ _ _ _ hgg

/-- Claim C3: within the Session Store a session's phase only ever advances
`lobby → question` (the only phase assignment in the code; `leaderboard` and
`ended` are never written); when the connection registered as the session's
host closes, the session is removed from the store in that same step — the
code realizes the Ended state by removal rather than by writing the phase
field — and a removed (or never-present) session accepts no further
mutation: any session appearing in the store under an id that was absent
before the step is a fresh lobby session (empty roster, index −1, shared
state 0). -/
theorem phase_advances_or_session_removed (dbOk : Bool) (st : ServerState)
    (e : Event) (gid : String) :
    (∀ g g', mapGet st.games gid = some g →
       mapGet (step dbOk st e).1.games gid = some g' →
       g'.gamePhase = g.gamePhase ∨
         (g.gamePhase = GamePhase.lobby ∧ g'.gamePhase = GamePhase.question)) ∧
    (∀ c ci, e = Event.closed c → mapGet st.wsClientMap c = some ci →
       ci.gameId = gid → ci.isHost = true →
       mapGet (step dbOk st e).1.games gid = none) ∧
    (∀ g', mapGet st.games gid = none →
       mapGet (step dbOk st e).1.games gid = some g' →
       g'.gamePhase = GamePhase.lobby ∧ g'.players = [] ∧
       g'.currentQuestionIndex = -1 ∧ g'.sharedAdminState = 0) := by
  refine ⟨?_, ?_, ?_⟩
  · intro g g' hbefore hafter
    cases e with
    | msg c m =>
        simp only [step, handleMessage] at hafter
        cases m with
        | hostJoin a b =>
            rcases handleHostJoin_games st c a b gid with
              huc | ⟨hn, pin, hsome⟩ | ⟨g0, hg0, hsome⟩
            · rw [huc, hbefore] at hafter
              obtain rfl : g = g' := Option.some.inj hafter
              exact Or.inl rfl
            · rw [hbefore] at hn
              simp at hn
            · rw [hbefore] at hg0
              obtain rfl : g = g0 := Option.some.inj hg0
              rw [hsome] at hafter
              obtain rfl : { g with hostWs := some c } = g' :=
                Option.some.inj hafter
              exact Or.inl rfl
        | playerIdentify a b d =>
            rcases handlePlayerIdentify_games st c a b d gid with
              huc | ⟨g0, pid, p, hg0, hsome⟩
            · rw [huc, hbefore] at hafter
              obtain rfl : g = g' := Option.some.inj hafter
              exact Or.inl rfl
            · rw [hbefore] at hg0
              obtain rfl : g = g0 := Option.some.inj hg0
              rw [hsome] at hafter
              obtain rfl : { g with players := mapSet g.players pid p } = g' :=
                Option.some.inj hafter
              exact Or.inl rfl
        | startGame =>
            rcases handleStartGame_games st c gid with
              huc | ⟨g0, hg0, hph, hsome⟩
            · rw [huc, hbefore] at hafter
              obtain rfl : g = g' := Option.some.inj hafter
              exact Or.inl rfl
            · rw [hbefore] at hg0
              obtain rfl : g = g0 := Option.some.inj hg0
              rw [hsome] at hafter
              obtain rfl := Option.some.inj hafter
              exact Or.inr ⟨hph, rfl⟩
        | adminUpdateSharedState v =>
            rcases handleAdminUpdate_games st c v gid with
              huc | ⟨g0, q, hg0, hsome⟩
            · rw [huc, hbefore] at hafter
              obtain rfl : g = g' := Option.some.inj hafter
              exact Or.inl rfl
            · rw [hbefore] at hg0
              obtain rfl : g = g0 := Option.some.inj hg0
              rw [hsome] at hafter
              obtain rfl : { g with sharedAdminState := q } = g' :=
                Option.some.inj hafter
              exact Or.inl rfl
        | submitAnswer ai =>
            rw [handleSubmitAnswer_state, hbefore] at hafter
            obtain rfl : g = g' := Option.some.inj hafter
            exact Or.inl rfl
    | closed c =>
        simp only [step] at hafter
        rcases handleClose_games dbOk st c gid with
          huc | hnone | ⟨g0, pid, p, hg0, hsome⟩
        · rw [huc, hbefore] at hafter
          obtain rfl : g = g' := Option.some.inj hafter
          exact Or.inl rfl
        · rw [hnone] at hafter
          simp at hafter
        · rw [hbefore] at hg0
          obtain rfl : g = g0 := Option.some.inj hg0
          rw [hsome] at hafter
          obtain rfl : { g with players := mapSet g.players pid p } = g' :=
            Option.some.inj hafter
          exact Or.inl rfl
  · rintro c ci rfl hci rfl hhost
    simp only [step]
    cases hsg : mapGet st.games ci.gameId with
    | none => simp [handleClose, hci, hsg]
    | some g0 =>
        have hmain : (handleClose dbOk st c).1.games =
            mapDelete (mapSet st.games ci.gameId { g0 with hostWs := none })
              ci.gameId := by
          simp [handleClose, hci, hsg, hhost, hostTeardown]
        rw [hmain]
        exact mapGet_mapDelete_self _ _
  · intro g' hnone hafter
    cases e with
    | msg c m =>
        simp only [step, handleMessage] at hafter
        cases m with
        | hostJoin a b =>
            rcases handleHostJoin_games st c a b gid with
              huc | ⟨hn, pin, hsome⟩ | ⟨g0, hg0, hsome⟩
            · rw [huc, hnone] at hafter
              simp at hafter
            · rw [hsome] at hafter
              obtain rfl : { freshGame gid pin with hostWs := some c } = g' :=
                Option.some.inj hafter
              exact ⟨rfl, rfl, rfl, rfl⟩
            · rw [hnone] at hg0
              simp at hg0
        | playerIdentify a b d =>
            rcases handlePlayerIdentify_games st c a b d gid with
              huc | ⟨g0, pid, p, hg0, hsome⟩
            · rw [huc, hnone] at hafter
              simp at hafter
            · rw [hnone] at hg0
              simp at hg0
        | startGame =>
            rcases handleStartGame_games st c gid with
              huc | ⟨g0, hg0, hph, hsome⟩
            · rw [huc, hnone] at hafter
              simp at hafter
            · rw [hnone] at hg0
              simp at hg0
        | adminUpdateSharedState v =>
            rcases handleAdminUpdate_games st c v gid with
              huc | ⟨g0, q, hg0, hsome⟩
            · rw [huc, hnone] at hafter
              simp at hafter
            · rw [hnone] at hg0
              simp at hg0
        | submitAnswer ai =>
            rw [handleSubmitAnswer_state, hnone] at hafter
            simp at hafter
    | closed c =>
        simp only [step] at hafter
        rcases handleClose_games dbOk st c gid with
          huc | hn | ⟨g0, pid, p, hg0, hsome⟩
        · rw [huc, hnone] at hafter
          simp at hafter
        · rw [hn] at hafter
          simp at hafter
        · rw [hnone] at hg0
          simp at hg0

def gameW3 : GameState :=
  { gameId := "g", gamePin := "P", hostWs := some 0, players := [],
    currentQuestionIndex := -1, gamePhase := GamePhase.lobby, sharedAdminState := 0 }

def gameW3q : GameState :=
  { gameW3 with gamePhase := GamePhase.question, currentQuestionIndex := 0 }

def gameW3f : GameState := { freshGame "g" "P" with hostWs := some 1 }

def stW3 : ServerState :=
  { games := [("g", gameW3)]
    wsClientMap := [(0, ⟨"g", "host_g", true⟩)]
    openConns := [0] }

def stW3e : ServerState := { games := [], wsClientMap := [], openConns := [1] }

/-- Witness for C3: a concrete lobby→question advance, a concrete
host-closure removal, and a concrete fresh creation. -/
theorem phase_advances_or_session_removed_witness :
    (gameW3q.gamePhase = gameW3.gamePhase ∨
      (gameW3.gamePhase = GamePhase.lobby ∧
       gameW3q.gamePhase = GamePhase.question)) ∧
    mapGet (step true stW3 (Event.closed 0)).1.games "g" = none ∧
    (gameW3f.gamePhase = GamePhase.lobby ∧ gameW3f.players = [] ∧
     gameW3f.currentQuestionIndex = -1 ∧ gameW3f.sharedAdminState = 0) :=
  ⟨(phase_advances_or_session_removed true stW3
      (Event.msg 0 ClientMsg.startGame) "g").1 gameW3 gameW3q
      (by decide) (by decide),
   (phase_advances_or_session_removed true stW3 (Event.closed 0) "g").2.1
      0 ⟨"g", "host_g", true⟩ rfl (by decide) rfl rfl,
   (phase_advances_or_session_removed true stW3e
      (Event.msg 1 (ClientMsg.hostJoin (some "g") (some "P"))) "g").2.2 gameW3f
      (by decide) (by decide)⟩

end QuizServer
